import Mathlib

/-!
Shallow embedding of `pvpc/pvpc.py`: a fetch-and-transform routine that
retrieves a per-day JSON document of hourly electricity prices and turns it
into an hour-indexed mapping of prices in currency per kWh.

Modelling conventions:
* A JSON hourly record is an association list from field names to string
  values; a payload is an association list from top-level field names to
  lists of hourly records (only the price-list field `PVPC` is ever read).
* Python exceptions become an explicit error type `PvpcError`; functions
  that can raise return `Except PvpcError _`.
* Python `float` values are modelled as exact rationals `ℚ`: the decimal
  strings the source parses and the division by 1000 are exact in `ℚ`.
* Python `int(s)` / `float(s)` on the string shapes that occur here are
  modelled by `parseIntStr` / `parseFloat` (optional sign, decimal digits,
  optional fractional part); an unparseable string is a `ValueError`.
* The single outbound HTTP call of `get_day_prices` is modelled by a fetch
  oracle `fetch : D → HttpResponse`; the result also records how many
  network calls were made, so "fails before any network call" is statable.
-/

/-- One hourly record of the payload: JSON object with string values
(fields `Hora`, `GEN`, `NOC`, `VHC`). -/
abbrev Record := List (String × String)

/-- The JSON payload: a JSON object whose fields hold lists of hourly
records (the parser only ever reads the field `PVPC`). -/
abbrev Payload := List (String × List Record)

/-- Errors raised by the Python code. `dateError` is `DateError`;
its class (module `pvpc.exceptions`) is not under `src/`.
Modelled from the spec: the data-shape error is "a distinct exception
distinguishable from the invalid-input error", so it is a separate
constructor from `valueError` (Python `ValueError`) and `keyError`
(Python `KeyError`, carrying the missing key). -/
inductive PvpcError where
  | dateError : PvpcError
  | valueError : String → PvpcError
  | keyError : String → PvpcError
deriving DecidableEq, Repr

/-- `AVAILABLE_RATES` from the source: the fixed rate catalog. -/
def AVAILABLE_RATES : List String := ["GEN", "NOC", "VHC"]

/-- Python `hour[k]`: field access on a record, raising `KeyError k` when
the field is absent. -/
def recordGet (rec : Record) (k : String) : Except PvpcError String :=
  match rec.lookup k with
  | some v => Except.ok v
  | none => Except.error (PvpcError.keyError k)

/-- Python `s[:2]` and friends: the first `n` characters of a string. -/
def takeChars (s : String) (n : Nat) : String := String.mk (s.data.take n)

/-- Value of a list of decimal digit characters, `none` if empty or if any
character is not a digit. -/
def parseDigits (l : List Char) : Option Nat :=
  if l.isEmpty then none
  else if l.all (fun c => c.isDigit) then
    some (l.foldl (fun n c => 10 * n + (c.toNat - 48)) 0)
  else none

/-- Python `int(s)` on the strings that occur here: optional sign followed
by decimal digits; anything else raises `ValueError` (modelled as `none`). -/
def parseIntStr (s : String) : Option Int :=
  match s.data with
  | '-' :: rest => (parseDigits rest).map (fun n => -(n : Int))
  | '+' :: rest => (parseDigits rest).map (fun n => (n : Int))
  | l => (parseDigits l).map (fun n => (n : Int))

/-- Unsigned decimal literal `digits[.digits]` as an exact rational;
`none` when not of that shape (then Python `float` raises `ValueError`). -/
def parseUnsignedFloat (l : List Char) : Option ℚ :=
  match l.splitOn '.' with
  | [intPart] => (parseDigits intPart).map (fun n => (n : ℚ))
  | [intPart, fracPart] =>
    if intPart.isEmpty && fracPart.isEmpty then none
    else if intPart.all (fun c => c.isDigit) && fracPart.all (fun c => c.isDigit) then
      some ((intPart.foldl (fun n c => 10 * n + (c.toNat - 48)) 0 : Nat) +
        ((fracPart.foldl (fun n c => 10 * n + (c.toNat - 48)) 0 : Nat) : ℚ) /
          (10 ^ fracPart.length))
    else none
  | _ => none

/-- Python `float(s)` on the strings that occur here: optional sign and a
decimal literal, as an exact rational. -/
def parseFloat (s : String) : Option ℚ :=
  match s.data with
  | '-' :: rest => (parseUnsignedFloat rest).map (fun q => -q)
  | '+' :: rest => parseUnsignedFloat rest
  | l => parseUnsignedFloat l

/-- Python `price_str.replace(',', '.')`: every comma becomes a point. -/
def replaceCommas (s : String) : String :=
  String.mk (s.data.map (fun c => if c = ',' then '.' else c))

/-- `check_valid_answer` from the source: `answer['PVPC']` guarded by
`try/except KeyError`, raising `DateError` when the field is absent. -/
def check_valid_answer (answer : Payload) : Except PvpcError Unit :=
  match answer.lookup "PVPC" with
  | some _ => Except.ok ()
  | none => Except.error PvpcError.dateError

/-- `parsed_time_in_answer_from_ree` from the source:
`int(hour['Hora'][:2])`. -/
def parsed_time_in_answer_from_ree (hour : Record) : Except PvpcError Int :=
  match recordGet hour "Hora" with
  | Except.error e => Except.error e
  | Except.ok s =>
    match parseIntStr (takeChars s 2) with
    | some n => Except.ok n
    | none =>
      Except.error (PvpcError.valueError
        ("invalid literal for int() with base 10: " ++ takeChars s 2))

/-- `price_from_ree_into_float` from the source:
`float(price_str.replace(',', '.')) / 1000`. -/
def price_from_ree_into_float (price_str : String) : Except PvpcError ℚ :=
  match parseFloat (replaceCommas price_str) with
  | some q => Except.ok (q / 1000)
  | none =>
    Except.error (PvpcError.valueError
      ("could not convert string to float: " ++ price_str))

/-- An hour's value in the parsed answer: a single price when a rate was
requested, a rate-to-price mapping otherwise (Python dict). -/
inductive Price where
  | single : ℚ → Price
  | multi : List (String × ℚ) → Price
deriving DecidableEq, Repr

/-- Python `hour[a_rate]` followed by `price_from_ree_into_float`. -/
def fieldPrice (rec : Record) (a : String) : Except PvpcError ℚ :=
  match recordGet rec a with
  | Except.ok s => price_from_ree_into_float s
  | Except.error e => Except.error e

/-- The dict comprehension
`{a_rate: price_from_ree_into_float(hour[a_rate]) for a_rate in rates}`,
evaluated left to right (the first failing field determines the error). -/
def ratesPrices (rec : Record) : List String → Except PvpcError (List (String × ℚ))
  | [] => Except.ok []
  | a :: rest =>
    match fieldPrice rec a with
    | Except.ok q =>
      match ratesPrices rec rest with
      | Except.ok l => Except.ok ((a, q) :: l)
      | Except.error e => Except.error e
    | Except.error e => Except.error e

/-- One iteration of the parse loop body: compute the price (all catalog
rates, or the one requested), then the hour key — in the source's
evaluation order (price first, key second). -/
def processRecord (rate : Option String) (rec : Record) :
    Except PvpcError (Int × Price) :=
  match (match rate with
    | none => Except.map Price.multi (ratesPrices rec AVAILABLE_RATES)
    | some rt => Except.map Price.single (fieldPrice rec rt)) with
  | Except.ok price =>
    match parsed_time_in_answer_from_ree rec with
    | Except.ok k => Except.ok (k, price)
    | Except.error e => Except.error e
  | Except.error e => Except.error e

/-- Python dict assignment `d[k] = v`: update in place when the key is
present, append otherwise (insertion order preserved). -/
def dictInsert (d : List (Int × Price)) (k : Int) (v : Price) :
    List (Int × Price) :=
  if d.any (fun e => e.1 == k) then
    d.map (fun e => if e.1 = k then (k, v) else e)
  else d ++ [(k, v)]

/-- The `for hour in answer['PVPC']` loop of `parse_answer_from_ree`,
accumulating into the Python dict `parsed_answer`. -/
def parseLoop (rate : Option String) :
    List Record → List (Int × Price) → Except PvpcError (List (Int × Price))
  | [], acc => Except.ok acc
  | rec :: rest, acc =>
    match processRecord rate rec with
    | Except.ok kv => parseLoop rate rest (dictInsert acc kv.1 kv.2)
    | Except.error e => Except.error e

/-- `parse_answer_from_ree` from the source: validate the payload shape,
then fold the per-record transform over `answer['PVPC']`. -/
def parse_answer_from_ree (answer : Payload) (rate : Option String := none) :
    Except PvpcError (List (Int × Price)) :=
  match check_valid_answer answer with
  | Except.error e => Except.error e
  | Except.ok _ => parseLoop rate ((answer.lookup "PVPC").getD []) []

/-- `check_requested_rate` from the source: raises
`ValueError('The rate {} is not valid'.format(rate))` for a rate outside
the catalog. -/
def check_requested_rate (rate : String) : Except PvpcError Unit :=
  if rate ∉ AVAILABLE_RATES then
    Except.error (PvpcError.valueError ("The rate " ++ rate ++ " is not valid"))
  else Except.ok ()

/-- An HTTP response as `get_day_prices` consumes it: the status code and
the JSON-parsed body (`ans.json()` is only called on status 200). -/
structure HttpResponse where
  status_code : Nat
  body : Payload
deriving DecidableEq

/-- What `get_day_prices` returns on the non-raising paths: the parsed
mapping, or the Python literal `False` on a non-200 response. -/
inductive DayPricesResult where
  | mapping : List (Int × Price) → DayPricesResult
  | failure : DayPricesResult
deriving DecidableEq

/-- Outcome of a `get_day_prices` run: its returned value (or raised
error) together with the number of outbound network calls made. -/
structure RunResult where
  result : Except PvpcError DayPricesResult
  networkCalls : Nat

/-- `get_day_prices` from the source, with the HTTP GET modelled by the
fetch oracle: check the rate (raising before any I/O), perform the one
request, then parse on 200 or return `False` otherwise. -/
def get_day_prices {D : Type} (fetch : D → HttpResponse) (date : D)
    (rate : Option String := none) : RunResult :=
  match (match rate with
    | some r => check_requested_rate r
    | none => Except.ok ()) with
  | Except.error e => { result := Except.error e, networkCalls := 0 }
  | Except.ok _ =>
    let ans := fetch date
    if ans.status_code = 200 then
      { result := Except.map DayPricesResult.mapping
          (parse_answer_from_ree ans.body rate),
        networkCalls := 1 }
    else
      { result := Except.ok DayPricesResult.failure, networkCalls := 1 }

/-- `get_today_prices` from the source: pure delegation to
`get_day_prices` with `datetime.today()` (the oracle value `today`). -/
def get_today_prices {D : Type} (fetch : D → HttpResponse) (today : D)
    (rate : Option String := none) : RunResult :=
  get_day_prices fetch today rate

/-- Two-digit zero-padded rendering of an hour, as the upstream source
formats hour labels. -/
def pad2 (n : Nat) : String := if n < 10 then "0" ++ toString n else toString n

/-- The fixed-width hour label of the upstream format (`"00-01"`,
`"01-02"`, ..., `"23-24"`): the hour span the record covers. -/
def stdHourLabel (h : Nat) : String := pad2 h ++ "-" ++ pad2 (h + 1)

/-- The hour key the parse extracts from a record (`int(hour['Hora'][:2])`),
as a total function (defaulting to 0 off the well-formed domain). -/
def wfKey (rec : Record) : Int :=
  ((rec.lookup "Hora").bind (fun s => parseIntStr (takeChars s 2))).getD 0

/-- The converted price of one rate field of a record, as a total function
(defaulting to 0 off the well-formed domain). -/
def convOf (rec : Record) (a : String) : ℚ :=
  ((rec.lookup a).bind (fun s => parseFloat (replaceCommas s))).getD 0 / 1000

/-- The value stored under a record's hour key: the single converted price
of the requested rate, or the mapping over the whole catalog. -/
def wfPrice (rate : Option String) (rec : Record) : Price :=
  match rate with
  | none => Price.multi (AVAILABLE_RATES.map (fun a => (a, convOf rec a)))
  | some rt => Price.single (convOf rec rt)

/-- A well-formed hourly record, per the spec's expected response shape:
an hour label of the upstream fixed-width format for an hour of the day,
and a parseable decimal price string for every catalog rate. -/
def recordWF (rec : Record) : Prop :=
  (∃ h : Fin 24, rec.lookup "Hora" = some (stdHourLabel h.val)) ∧
  ∀ a ∈ AVAILABLE_RATES,
    ((rec.lookup a).bind (fun s => parseFloat (replaceCommas s))).isSome

instance (rec : Record) : Decidable (recordWF rec) := by
  unfold recordWF; infer_instance

/-- A well-formed payload: the price-list field `PVPC` holds the given
records, each well formed, with pairwise distinct hours (one record per
hour of the day, as the upstream publishes). -/
def WellFormed (answer : Payload) (recs : List Record) : Prop :=
  answer.lookup "PVPC" = some recs ∧ (∀ rec ∈ recs, recordWF rec) ∧
    (recs.map wfKey).Nodup

instance (answer : Payload) (recs : List Record) :
    Decidable (WellFormed answer recs) := by
  unfold WellFormed; infer_instance

/-- A rate argument the parse accepts without a `KeyError` on well-formed
records: either absent or one of the catalog rates. -/
def rateOk (rate : Option String) : Prop :=
  rate = none ∨ ∃ rt, rate = some rt ∧ rt ∈ AVAILABLE_RATES

theorem hourLabel_parse :
    ∀ h : Fin 24, parseIntStr (takeChars (stdHourLabel h.val) 2) = some (h.val : Int) := by
  decide

theorem fieldPrice_of_isSome (rec : Record) (a : String)
    (h : ((rec.lookup a).bind (fun s => parseFloat (replaceCommas s))).isSome) :
    fieldPrice rec a = Except.ok (convOf rec a) := by
  cases hl : rec.lookup a with
  | none => simp [hl] at h
  | some s =>
    simp only [hl, Option.some_bind] at h
    cases hp : parseFloat (replaceCommas s) with
    | none => simp [hp] at h
    | some q =>
      simp [fieldPrice, recordGet, hl, price_from_ree_into_float, hp, convOf]

theorem ratesPrices_of_isSome (rec : Record) : ∀ (l : List String),
    (∀ a ∈ l, ((rec.lookup a).bind (fun s => parseFloat (replaceCommas s))).isSome) →
    ratesPrices rec l = Except.ok (l.map (fun a => (a, convOf rec a)))
  | [], _ => rfl
  | a :: rest, h => by
    rw [ratesPrices, fieldPrice_of_isSome rec a (h a (List.mem_cons_self a rest)),
      ratesPrices_of_isSome rec rest (fun b hb => h b (List.mem_cons_of_mem a hb))]
    simp

theorem parsed_time_wf (rec : Record) (h : Fin 24)
    (hHora : rec.lookup "Hora" = some (stdHourLabel h.val)) :
    parsed_time_in_answer_from_ree rec = Except.ok (wfKey rec) ∧
      wfKey rec = (h.val : Int) := by
  constructor
  · simp [parsed_time_in_answer_from_ree, recordGet, hHora, hourLabel_parse h, wfKey]
  · simp [wfKey, hHora, hourLabel_parse h]

theorem processRecord_wf (rate : Option String) (rec : Record)
    (hrec : recordWF rec) (hrate : rateOk rate) :
    processRecord rate rec = Except.ok (wfKey rec, wfPrice rate rec) := by
  obtain ⟨⟨h, hHora⟩, hrates⟩ := hrec
  obtain ⟨htime, _⟩ := parsed_time_wf rec h hHora
  rcases hrate with hnone | ⟨rt, hrt, hmem⟩
  · subst hnone
    simp [processRecord, ratesPrices_of_isSome rec AVAILABLE_RATES hrates,
      htime, wfPrice, Except.map]
  · subst hrt
    simp [processRecord, fieldPrice_of_isSome rec rt (hrates rt hmem), htime,
      wfPrice, Except.map]

theorem dictInsert_fresh (d : List (Int × Price)) (k : Int) (v : Price)
    (h : ∀ e ∈ d, e.1 ≠ k) : dictInsert d k v = d ++ [(k, v)] := by
  have hany : d.any (fun e => e.1 == k) = false := by
    simp only [List.any_eq_false, beq_iff_eq]
    exact h
  simp [dictInsert, hany]

theorem parseLoop_wf (rate : Option String) : ∀ (recs : List Record)
    (acc : List (Int × Price)),
    (∀ rec ∈ recs, processRecord rate rec = Except.ok (wfKey rec, wfPrice rate rec)) →
    (acc.map Prod.fst ++ recs.map wfKey).Nodup →
    parseLoop rate recs acc =
      Except.ok (acc ++ recs.map (fun rec => (wfKey rec, wfPrice rate rec)))
  | [], acc, _, _ => by simp [parseLoop]
  | rec :: rest, acc, hok, hnd => by
    have hfresh : ∀ e ∈ acc, e.1 ≠ wfKey rec := by
      intro e he heq
      rw [List.nodup_append] at hnd
      exact hnd.2.2 (List.mem_map_of_mem Prod.fst he)
        (heq ▸ List.mem_cons_self _ _)
    simp only [parseLoop, hok rec (List.mem_cons_self rec rest)]
    rw [dictInsert_fresh acc (wfKey rec) (wfPrice rate rec) hfresh,
      parseLoop_wf rate rest (acc ++ [(wfKey rec, wfPrice rate rec)])
        (fun r hr => hok r (List.mem_cons_of_mem rec hr))
        (by simpa [List.append_assoc] using hnd)]
    simp

theorem parse_answer_wf (answer : Payload) (recs : List Record)
    (rate : Option String) (hWF : WellFormed answer recs) (hrate : rateOk rate) :
    parse_answer_from_ree answer rate =
      Except.ok (recs.map (fun rec => (wfKey rec, wfPrice rate rec))) := by
  obtain ⟨hpv, hrec, hnd⟩ := hWF
  rw [parse_answer_from_ree]
  simp only [check_valid_answer, hpv, Option.getD_some]
  rw [parseLoop_wf rate recs []
    (fun rec h => processRecord_wf rate rec (hrec rec h) hrate)
    (by simpa using hnd)]
  simp

theorem processRecord_some_congr (rt : String) (r1 r2 : Record)
    (hr : r1.lookup rt = r2.lookup rt)
    (hh : r1.lookup "Hora" = r2.lookup "Hora") :
    processRecord (some rt) r1 = processRecord (some rt) r2 := by
  simp only [processRecord, fieldPrice, recordGet,
    parsed_time_in_answer_from_ree, hr, hh]

theorem parseLoop_some_congr (rt : String) : ∀ (l1 l2 : List Record)
    (acc : List (Int × Price)),
    l1.map (fun r => (r.lookup rt, r.lookup "Hora")) =
      l2.map (fun r => (r.lookup rt, r.lookup "Hora")) →
    parseLoop (some rt) l1 acc = parseLoop (some rt) l2 acc
  | [], [], _, _ => rfl
  | [], _ :: _, _, h => by simp at h
  | _ :: _, [], _, h => by simp at h
  | r1 :: t1, r2 :: t2, acc, h => by
    simp only [List.map_cons, List.cons.injEq, Prod.mk.injEq] at h
    obtain ⟨⟨hr, hh⟩, ht⟩ := h
    simp only [parseLoop, processRecord_some_congr rt r1 r2 hr hh]
    cases hpr : processRecord (some rt) r2 with
    | ok kv => exact parseLoop_some_congr rt t1 t2 (dictInsert acc kv.1 kv.2) ht
    | error e => rfl

theorem parseLoop_ok_prefix (rate : Option String) : ∀ (pre l : List Record)
    (acc : List (Int × Price)),
    (∀ p ∈ pre, ∃ kv, processRecord rate p = Except.ok kv) →
    ∃ acc2, parseLoop rate (pre ++ l) acc = parseLoop rate l acc2
  | [], l, acc, _ => ⟨acc, rfl⟩
  | p :: ps, l, acc, h => by
    obtain ⟨kv, hkv⟩ := h p (List.mem_cons_self p ps)
    simp only [List.cons_append, parseLoop, hkv]
    exact parseLoop_ok_prefix rate ps l (dictInsert acc kv.1 kv.2)
      (fun q hq => h q (List.mem_cons_of_mem p hq))

theorem processRecord_keyError_some (rec : Record) (rt : String)
    (h : rec.lookup rt = none) :
    processRecord (some rt) rec = Except.error (PvpcError.keyError rt) := by
  simp [processRecord, fieldPrice, recordGet, h, Except.map]

theorem ratesPrices_keyError (rec : Record) : ∀ (bs : List String)
    (a : String) (as : List String),
    (∀ b ∈ bs, ∃ q, fieldPrice rec b = Except.ok q) →
    rec.lookup a = none →
    ratesPrices rec (bs ++ a :: as) = Except.error (PvpcError.keyError a)
  | [], a, as, _, ha => by
    simp [ratesPrices, fieldPrice, recordGet, ha]
  | b :: bs, a, as, hok, ha => by
    obtain ⟨q, hq⟩ := hok b (List.mem_cons_self b bs)
    simp only [List.cons_append, ratesPrices, hq, List.append_eq,
      ratesPrices_keyError rec bs a as
        (fun c hc => hok c (List.mem_cons_of_mem b hc)) ha]

theorem processRecord_keyError_none (rec : Record) (bs as : List String)
    (a : String) (hcat : AVAILABLE_RATES = bs ++ a :: as)
    (hok : ∀ b ∈ bs, ∃ q, fieldPrice rec b = Except.ok q)
    (ha : rec.lookup a = none) :
    processRecord none rec = Except.error (PvpcError.keyError a) := by
  simp [processRecord, hcat, ratesPrices_keyError rec bs a as hok ha, Except.map]

theorem parse_answer_keyError (answer : Payload) (pre rest : List Record)
    (rec : Record) (rate : Option String) (k : String)
    (hpv : answer.lookup "PVPC" = some (pre ++ rec :: rest))
    (hpre : ∀ p ∈ pre, ∃ kv, processRecord rate p = Except.ok kv)
    (hrec : processRecord rate rec = Except.error (PvpcError.keyError k)) :
    parse_answer_from_ree answer rate = Except.error (PvpcError.keyError k) := by
  rw [parse_answer_from_ree]
  simp only [check_valid_answer, hpv, Option.getD_some]
  obtain ⟨acc2, hacc⟩ := parseLoop_ok_prefix rate pre (rec :: rest) [] hpre
  rw [hacc]
  simp [parseLoop, hrec]

/-- The mapping `parse_answer_from_ree` builds on a well-formed record
list: one entry per record, keyed by the record's hour. -/
def parsedWF (rate : Option String) (recs : List Record) : List (Int × Price) :=
  recs.map (fun rec => (wfKey rec, wfPrice rate rec))

theorem specHour_wf (rec : Record) (hrec : recordWF rec) :
    (rec.lookup "Hora").bind (fun s => parseIntStr (takeChars s 2)) =
      some (wfKey rec) := by
  obtain ⟨⟨h, hHora⟩, _⟩ := hrec
  simp [hHora, hourLabel_parse h, wfKey]

theorem wfKey_range (rec : Record) (hrec : recordWF rec) :
    0 ≤ wfKey rec ∧ wfKey rec ≤ 23 := by
  obtain ⟨⟨h, hHora⟩, _⟩ := hrec
  have hlt := h.isLt
  simp only [wfKey, hHora, Option.some_bind, hourLabel_parse h, Option.getD_some]
  omega

/-- Sample hourly records and payloads used to instantiate the theorems. -/
def sampleRec0 : Record :=
  [("Hora", "00-01"), ("GEN", "10,0"), ("NOC", "20,0"), ("VHC", "30,0")]

def sampleRec1 : Record :=
  [("Hora", "01-02"), ("GEN", "11,5"), ("NOC", "21,5"), ("VHC", "31,5")]

def samplePayload : Payload := [("PVPC", [sampleRec0, sampleRec1])]

/-- Records agreeing with `sampleRec0` / `sampleRec1` on the `Hora` and
`GEN` fields but differing on the other rates' fields. -/
def sampleRec0b : Record :=
  [("Hora", "00-01"), ("GEN", "10,0"), ("NOC", "99,9"), ("VHC", "0,1")]

def sampleRec1b : Record :=
  [("Hora", "01-02"), ("GEN", "11,5"), ("NOC", "88,8"), ("VHC", "0,2")]

/-- A payload agreeing with `samplePayload` on the `Hora` and `GEN` fields
of every record but differing on the other rates' fields. -/
def samplePayload2 : Payload := [("PVPC", [sampleRec0b, sampleRec1b])]

/-- C1: for every well-formed payload whose price-list field `PVPC` holds a
list of hourly records, `parse_answer_from_ree` returns a mapping that
contains exactly one entry per hour label present in the input (the keys,
in order, are exactly the integers parsed from the first two characters of
each record's `Hora` label, and they are pairwise distinct). -/
theorem claim_C1 (answer : Payload) (recs : List Record) (rate : Option String)
    (hWF : WellFormed answer recs) (hrate : rateOk rate) :
    parse_answer_from_ree answer rate = Except.ok (parsedWF rate recs) ∧
    (parsedWF rate recs).map (fun e => some e.1) =
      recs.map (fun rec => (rec.lookup "Hora").bind
        (fun s => parseIntStr (takeChars s 2))) ∧
    ((parsedWF rate recs).map Prod.fst).Nodup := by
  refine ⟨parse_answer_wf answer recs rate hWF hrate, ?_, ?_⟩
  · rw [parsedWF, List.map_map]
    symm
    apply List.map_congr_left
    intro rec hr
    exact specHour_wf rec (hWF.2.1 rec hr)
  · rw [parsedWF, List.map_map]
    simpa using hWF.2.2

/-- C1 witness: a concrete two-record payload, parsed with no rate. -/
theorem claim_C1_witness :
    parse_answer_from_ree samplePayload none =
      Except.ok (parsedWF none [sampleRec0, sampleRec1]) ∧
    (parsedWF none [sampleRec0, sampleRec1]).map (fun e => some e.1) =
      [sampleRec0, sampleRec1].map (fun rec => (rec.lookup "Hora").bind
        (fun s => parseIntStr (takeChars s 2))) ∧
    ((parsedWF none [sampleRec0, sampleRec1]).map Prod.fst).Nodup :=
  claim_C1 samplePayload [sampleRec0, sampleRec1] none (by decide) (Or.inl rfl)

/-- C2: the price conversion replaces the decimal comma with a point,
parses the result as a number (modelled exactly in `ℚ`), and divides by
1000; in particular `"123,450"` converts to exactly `123.450 / 1000 =
0.12345`. -/
theorem claim_C2 (s : String) (q : ℚ)
    (h : parseFloat (replaceCommas s) = some q) :
    price_from_ree_into_float s = Except.ok (q / 1000) ∧
    price_from_ree_into_float "123,450" = Except.ok ((123.450 : ℚ) / 1000) ∧
    (123.450 : ℚ) / 1000 = (0.12345 : ℚ) := by
  refine ⟨by simp [price_from_ree_into_float, h], ?_, by norm_num⟩
  have hp : price_from_ree_into_float "123,450" =
      Except.ok ((((123 : Nat) : ℚ) + ((450 : Nat) : ℚ) / 10 ^ 3) / 1000) := rfl
  rw [hp]
  norm_num

/-- C2 witness: the conversion evaluated at the raw string `"123,450"`. -/
theorem claim_C2_witness :
    price_from_ree_into_float "123,450" =
      Except.ok ((((123 : Nat) : ℚ) + ((450 : Nat) : ℚ) / 10 ^ 3) / 1000) ∧
    price_from_ree_into_float "123,450" = Except.ok ((123.450 : ℚ) / 1000) ∧
    (123.450 : ℚ) / 1000 = (0.12345 : ℚ) :=
  claim_C2 "123,450" (((123 : Nat) : ℚ) + ((450 : Nat) : ℚ) / 10 ^ 3) rfl

/-- C3: for every rate value outside the catalog `AVAILABLE_RATES`,
`get_day_prices` raises the invalid-input `ValueError` naming the offending
value, and makes no network call. -/
theorem claim_C3 (D : Type) (fetch : D → HttpResponse) (date : D)
    (rt : String) (h : rt ∉ AVAILABLE_RATES) :
    get_day_prices fetch date (some rt) =
      { result := Except.error
          (PvpcError.valueError ("The rate " ++ rt ++ " is not valid")),
        networkCalls := 0 } := by
  simp [get_day_prices, check_requested_rate, h]

/-- C3 witness: the rate `"FOO"` is rejected with no network call. -/
theorem claim_C3_witness :
    get_day_prices (fun _ : Unit => HttpResponse.mk 200 []) () (some "FOO") =
      { result := Except.error
          (PvpcError.valueError ("The rate " ++ "FOO" ++ " is not valid")),
        networkCalls := 0 } :=
  claim_C3 Unit (fun _ => HttpResponse.mk 200 []) () "FOO" (by decide)

/-- C4: with a valid (or absent) rate, a non-200 response makes
`get_day_prices` return the boolean failure value rather than raise, and a
200 response passes the parsed JSON body unmodified to the parser. -/
theorem claim_C4 (D : Type) (fetch : D → HttpResponse) (date : D)
    (rate : Option String) (hrate : rateOk rate) :
    ((fetch date).status_code ≠ 200 →
      get_day_prices fetch date rate =
        { result := Except.ok DayPricesResult.failure, networkCalls := 1 }) ∧
    ((fetch date).status_code = 200 →
      get_day_prices fetch date rate =
        { result := Except.map DayPricesResult.mapping
            (parse_answer_from_ree (fetch date).body rate),
          networkCalls := 1 }) := by
  constructor
  · intro h
    rcases hrate with hnone | ⟨rt, hrt, hmem⟩
    · subst hnone
      simp [get_day_prices, h]
    · subst hrt
      simp [get_day_prices, check_requested_rate, hmem, h]
  · intro h
    rcases hrate with hnone | ⟨rt, hrt, hmem⟩
    · subst hnone
      simp [get_day_prices, h]
    · subst hrt
      simp [get_day_prices, check_requested_rate, hmem, h]

/-- C4 witness: a 404 response yields the failure value; a 200 response
with the sample body yields the parsed mapping. -/
theorem claim_C4_witness :
    get_day_prices (fun _ : Unit => HttpResponse.mk 404 []) () none =
      { result := Except.ok DayPricesResult.failure, networkCalls := 1 } ∧
    get_day_prices (fun _ : Unit => HttpResponse.mk 200 samplePayload) () none =
      { result := Except.map DayPricesResult.mapping
          (parse_answer_from_ree samplePayload none),
        networkCalls := 1 } :=
  ⟨(claim_C4 Unit (fun _ => HttpResponse.mk 404 []) () none (Or.inl rfl)).1
      (by decide),
   (claim_C4 Unit (fun _ => HttpResponse.mk 200 samplePayload) () none
      (Or.inl rfl)).2 rfl⟩

/-- C5: for every payload lacking the top-level `PVPC` field,
`parse_answer_from_ree` raises the data-shape `DateError` — a different
exception from the invalid-input `ValueError` — and returns no mapping at
all (no partial result). -/
theorem claim_C5 (answer : Payload) (rate : Option String)
    (h : answer.lookup "PVPC" = none) :
    parse_answer_from_ree answer rate = Except.error PvpcError.dateError ∧
    (∀ m, parse_answer_from_ree answer rate ≠ Except.ok m) ∧
    (∀ msg, PvpcError.dateError ≠ PvpcError.valueError msg) := by
  have hfail : parse_answer_from_ree answer rate =
      Except.error PvpcError.dateError := by
    simp [parse_answer_from_ree, check_valid_answer, h]
  exact ⟨hfail, fun m hm => by rw [hfail] at hm; exact Except.noConfusion hm,
    fun msg hmsg => PvpcError.noConfusion hmsg⟩

/-- C5 witness: the empty payload has no `PVPC` field and fails with
`DateError`, which differs from a `ValueError`. -/
theorem claim_C5_witness :
    parse_answer_from_ree [] none = Except.error PvpcError.dateError ∧
    parse_answer_from_ree [] none ≠ Except.ok [] ∧
    PvpcError.dateError ≠ PvpcError.valueError "The rate X is not valid" :=
  ⟨(claim_C5 [] none rfl).1, (claim_C5 [] none rfl).2.1 [],
   (claim_C5 [] none rfl).2.2 "The rate X is not valid"⟩

/-- C6: on a well-formed payload parsed with `rate = none`, each hour's
value is a mapping holding exactly the three catalog rate keys `GEN`,
`NOC`, `VHC`, each bound to the independently converted price of that
record's corresponding field. -/
theorem claim_C6 (answer : Payload) (recs : List Record)
    (hWF : WellFormed answer recs) :
    parse_answer_from_ree answer none =
      Except.ok (recs.map (fun rec => (wfKey rec,
        Price.multi [("GEN", convOf rec "GEN"), ("NOC", convOf rec "NOC"),
          ("VHC", convOf rec "VHC")]))) :=
  parse_answer_wf answer recs none hWF (Or.inl rfl)

/-- C6 witness: the sample payload parsed with no rate. -/
theorem claim_C6_witness :
    parse_answer_from_ree samplePayload none =
      Except.ok ([sampleRec0, sampleRec1].map (fun rec => (wfKey rec,
        Price.multi [("GEN", convOf rec "GEN"), ("NOC", convOf rec "NOC"),
          ("VHC", convOf rec "VHC")]))) :=
  claim_C6 samplePayload [sampleRec0, sampleRec1] (by decide)

/-- C7: on a well-formed payload parsed with a catalog rate, each hour's
value is the single converted price of that rate's field; moreover (the
hyperproperty) any two payloads whose records agree on the `Hora` field and
on the requested rate's field parse to identical results — the other rate
fields are never read. -/
theorem claim_C7 :
    (∀ (answer : Payload) (recs : List Record) (rt : String),
      WellFormed answer recs → rt ∈ AVAILABLE_RATES →
      parse_answer_from_ree answer (some rt) =
        Except.ok (recs.map (fun rec =>
          (wfKey rec, Price.single (convOf rec rt))))) ∧
    (∀ (p1 p2 : Payload) (recs1 recs2 : List Record) (rt : String),
      p1.lookup "PVPC" = some recs1 → p2.lookup "PVPC" = some recs2 →
      recs1.map (fun r => (r.lookup rt, r.lookup "Hora")) =
        recs2.map (fun r => (r.lookup rt, r.lookup "Hora")) →
      parse_answer_from_ree p1 (some rt) = parse_answer_from_ree p2 (some rt)) := by
  constructor
  · intro answer recs rt hWF hmem
    exact parse_answer_wf answer recs (some rt) hWF (Or.inr ⟨rt, rfl, hmem⟩)
  · intro p1 p2 recs1 recs2 rt h1 h2 hagree
    rw [parse_answer_from_ree, parse_answer_from_ree]
    simp only [check_valid_answer, h1, h2, Option.getD_some]
    exact parseLoop_some_congr rt recs1 recs2 [] hagree

/-- C7 witness: the sample payload parsed with rate `GEN`, and a second
payload differing from it only in the `NOC` and `VHC` fields, which parses
to the same result. -/
theorem claim_C7_witness :
    parse_answer_from_ree samplePayload (some "GEN") =
      Except.ok ([sampleRec0, sampleRec1].map (fun rec =>
        (wfKey rec, Price.single (convOf rec "GEN")))) ∧
    parse_answer_from_ree samplePayload (some "GEN") =
      parse_answer_from_ree samplePayload2 (some "GEN") :=
  ⟨claim_C7.1 samplePayload [sampleRec0, sampleRec1] "GEN" (by decide)
      (by decide),
   claim_C7.2 samplePayload samplePayload2 [sampleRec0, sampleRec1]
      [sampleRec0b, sampleRec1b] "GEN" rfl rfl (by decide)⟩

/-- C8: on a well-formed payload, every key of the mapping returned by
`parse_answer_from_ree` is an hour-of-day integer between 0 and 23. -/
theorem claim_C8 (answer : Payload) (recs : List Record) (rate : Option String)
    (hWF : WellFormed answer recs) (hrate : rateOk rate) :
    parse_answer_from_ree answer rate = Except.ok (parsedWF rate recs) ∧
    ∀ k ∈ (parsedWF rate recs).map Prod.fst, 0 ≤ k ∧ k ≤ 23 := by
  refine ⟨parse_answer_wf answer recs rate hWF hrate, ?_⟩
  intro k hk
  rw [parsedWF, List.map_map] at hk
  obtain ⟨rec, hrec, hkeq⟩ := List.mem_map.mp hk
  exact hkeq ▸ wfKey_range rec (hWF.2.1 rec hrec)

/-- C8 witness: the sample payload's parsed keys, checked at key 0. -/
theorem claim_C8_witness :
    parse_answer_from_ree samplePayload none =
      Except.ok (parsedWF none [sampleRec0, sampleRec1]) ∧
    (0 ≤ (0 : Int) ∧ (0 : Int) ≤ 23) :=
  ⟨(claim_C8 samplePayload [sampleRec0, sampleRec1] none (by decide)
      (Or.inl rfl)).1,
   (claim_C8 samplePayload [sampleRec0, sampleRec1] none (by decide)
      (Or.inl rfl)).2 0 (by decide)⟩

/-- C9: `get_today_prices` is pure delegation — with no rate it returns
exactly what `get_day_prices` returns for the current date with no rate,
the fetch oracle being the same for both calls. -/
theorem claim_C9 (D : Type) (fetch : D → HttpResponse) (today : D) :
    get_today_prices fetch today = get_day_prices fetch today none := rfl

/-- C10 (amended): for every payload whose price-list field `PVPC` is
present, if a record lacks a price field the parse needs — the requested
rate's field, or, with no rate given, a catalog rate field such that the
catalog rates read before it all convert successfully — and every earlier
record processes successfully, then `parse_answer_from_ree` raises a
`KeyError` naming the missing field; `KeyError` is distinct from the
data-shape `DateError` and the invalid-input `ValueError` (and, being an
error, from any returned mapping). -/
theorem claim_C10 :
    (∀ (answer : Payload) (pre rest : List Record) (rec : Record) (rt : String),
      answer.lookup "PVPC" = some (pre ++ rec :: rest) →
      (∀ p ∈ pre, ∃ kv, processRecord (some rt) p = Except.ok kv) →
      rec.lookup rt = none →
      parse_answer_from_ree answer (some rt) =
        Except.error (PvpcError.keyError rt)) ∧
    (∀ (answer : Payload) (pre rest : List Record) (rec : Record)
        (bs as : List String) (a : String),
      AVAILABLE_RATES = bs ++ a :: as →
      answer.lookup "PVPC" = some (pre ++ rec :: rest) →
      (∀ p ∈ pre, ∃ kv, processRecord none p = Except.ok kv) →
      (∀ b ∈ bs, ∃ q, fieldPrice rec b = Except.ok q) →
      rec.lookup a = none →
      parse_answer_from_ree answer none = Except.error (PvpcError.keyError a)) ∧
    (∀ k, PvpcError.keyError k ≠ PvpcError.dateError) ∧
    (∀ k msg, PvpcError.keyError k ≠ PvpcError.valueError msg) := by
  refine ⟨?_, ?_, ?_, ?_⟩
  · intro answer pre rest rec rt hpv hpre hmiss
    exact parse_answer_keyError answer pre rest rec (some rt) rt hpv hpre
      (processRecord_keyError_some rec rt hmiss)
  · intro answer pre rest rec bs as a hcat hpv hpre hok hmiss
    exact parse_answer_keyError answer pre rest rec none a hpv hpre
      (processRecord_keyError_none rec bs as a hcat hok hmiss)
  · intro k h
    exact PvpcError.noConfusion h
  · intro k msg h
    exact PvpcError.noConfusion h

/-- C10 witness: a record lacking the requested rate `NOC` raises
`KeyError "NOC"`; with no rate, a record lacking `NOC` whose `GEN` field
converts raises `KeyError "NOC"`; `KeyError` differs from the other
errors. -/
theorem claim_C10_witness :
    parse_answer_from_ree [("PVPC", [[("GEN", "1,0")]])] (some "NOC") =
      Except.error (PvpcError.keyError "NOC") ∧
    parse_answer_from_ree [("PVPC", [[("Hora", "00-01"), ("GEN", "1,0")]])]
        none = Except.error (PvpcError.keyError "NOC") ∧
    PvpcError.keyError "NOC" ≠ PvpcError.dateError ∧
    PvpcError.keyError "NOC" ≠ PvpcError.valueError "x" :=
  ⟨claim_C10.1 [("PVPC", [[("GEN", "1,0")]])] [] [] [("GEN", "1,0")] "NOC" rfl
      (by simp) rfl,
   claim_C10.2.1 [("PVPC", [[("Hora", "00-01"), ("GEN", "1,0")]])] [] []
      [("Hora", "00-01"), ("GEN", "1,0")] ["GEN"] ["VHC"] "NOC" rfl rfl
      (by simp)
      (by
        intro b hb
        simp only [List.mem_singleton] at hb
        subst hb
        exact ⟨(((1 : Nat) : ℚ) + ((0 : Nat) : ℚ) / 10 ^ 1) / 1000, rfl⟩)
      rfl,
   claim_C10.2.2.1 "NOC",
   claim_C10.2.2.2 "NOC" "x"⟩

/-- C10 counterexample to the claim as stated: a payload whose single
record lacks the needed price field `NOC` but whose `GEN` field holds the
unconvertible string `"x"`; the parse raises `ValueError` (the dict
comprehension reads and converts `GEN` first), not a `KeyError`. -/
theorem claim_C10_counterexample :
    ([("PVPC", [[("Hora", "00-01"), ("GEN", "x"), ("VHC", "1")]])] :
        Payload).lookup "PVPC" =
      some [[("Hora", "00-01"), ("GEN", "x"), ("VHC", "1")]] ∧
    ([("Hora", "00-01"), ("GEN", "x"), ("VHC", "1")] : Record).lookup "NOC" =
      none ∧
    parse_answer_from_ree
        [("PVPC", [[("Hora", "00-01"), ("GEN", "x"), ("VHC", "1")]])] none =
      Except.error (PvpcError.valueError "could not convert string to float: x") ∧
    PvpcError.valueError "could not convert string to float: x" ≠
      PvpcError.keyError "NOC" :=
  ⟨rfl, rfl, rfl, by decide⟩
